import Mathlib

/-!
Verification of the em-taskflow RAG pipeline against its specification.

The development shallowly embeds the Python sources:
  * `src/python-services/reranker/app.py`   (standalone reranker service)
  * `src/backend/app/services/ml_models.py` (in-process embedding/rerank services)
  * `src/backend/app/services/rag.py`       (ingestion / retrieval pipeline)
  * `src/backend/app/services/agent.py`     (agent loop entry point)

Neural-network models (`encode_texts`, `CrossEncoder.predict`,
`SentenceTransformer.encode`) are opaque inference calls in the source and are
embedded as function parameters; real-valued scores are modeled by `ℚ`.
Stateful external services (the Chroma vector index) are modeled by explicit
state passing.  Fallible code returns `Except`.
-/

namespace TaskFlow

/-- Dot product of two vectors (numpy `a @ b` for 1-d arrays). -/
def dot (a b : List ℚ) : ℚ := (List.zipWith (· * ·) a b).sum

/-- Python list slicing `l[:k]` for an `int` index `k`, which may be negative:
a negative `k` counts from the end of the list, clamped at zero. -/
def pyTake (k : Int) (l : List α) : List α :=
  if 0 ≤ k then l.take k.toNat else l.take ((l.length : Int) + k).toNat

/-- Python `list.sort(key=key, reverse=True)`: a stable sort, descending by
`key`.  CPython's sort is stable; a stable descending sort is extensionally
unique, and `List.insertionSort` with relation `key b ≤ key a` realizes it
(an element is placed before every later element whose key is `≤` its own,
so equal keys keep their input order). -/
def pySortDesc (key : α → ℚ) (l : List α) : List α :=
  List.insertionSort (fun a b => key b ≤ key a) l

theorem pySortDesc_perm (key : α → ℚ) (l : List α) : (pySortDesc key l).Perm l :=
  List.perm_insertionSort _ l

theorem pySortDesc_length (key : α → ℚ) (l : List α) :
    (pySortDesc key l).length = l.length :=
  (pySortDesc_perm key l).length_eq

theorem pySortDesc_sorted (key : α → ℚ) (l : List α) :
    (pySortDesc key l).Sorted (fun a b => key b ≤ key a) := by
  haveI : IsTotal α (fun a b => key b ≤ key a) := ⟨fun a b => le_total (key b) (key a)⟩
  haveI : IsTrans α (fun a b => key b ≤ key a) :=
    ⟨fun _ _ _ h₁ h₂ => le_trans h₂ h₁⟩
  exact List.sorted_insertionSort _ l

/-- Stability of `pySortDesc`: restricting the output to the elements carrying
any fixed key value gives exactly the input restricted to that key value, in
the input order. -/
theorem pySortDesc_filter_key (key : α → ℚ) (l : List α) (c : ℚ) :
    (pySortDesc key l).filter (fun a => decide (key a = c)) =
      l.filter (fun a => decide (key a = c)) := by
  have hpw : (l.filter (fun a => decide (key a = c))).Pairwise
      (fun a b => key b ≤ key a) := by
    apply List.pairwise_of_forall_mem_list
    intro a ha b hb
    have ha' := (List.mem_filter.mp ha).2
    have hb' := (List.mem_filter.mp hb).2
    have ha'' : key a = c := of_decide_eq_true ha'
    have hb'' : key b = c := of_decide_eq_true hb'
    rw [ha'', hb'']
  have h1 : (l.filter (fun a => decide (key a = c))).Sublist l := List.filter_sublist l
  have h2 : (l.filter (fun a => decide (key a = c))).Sublist (pySortDesc key l) :=
    List.sublist_insertionSort hpw h1
  have h3 : (l.filter (fun a => decide (key a = c))).Sublist
      ((pySortDesc key l).filter (fun a => decide (key a = c))) := by
    have h4 := h2.filter (fun a => decide (key a = c))
    simpa [List.filter_filter] using h4
  have hlen : ((pySortDesc key l).filter (fun a => decide (key a = c))).length =
      (l.filter (fun a => decide (key a = c))).length :=
    ((pySortDesc_perm key l).filter _).length_eq
  exact (h3.eq_of_length hlen.symm).symm

/-! ### Reranker service (`src/python-services/reranker/app.py`)

The service computes embeddings with a fixed model and scores candidates by
cosine similarity of normalized embeddings.  The opaque model call
`encode_texts(·, normalize=True)` is embedded as a parameter
`embed : String → List ℚ` giving the (normalized) embedding of one text;
`encode_texts` maps it over a batch, and its guards (`Model not loaded`,
`No texts provided`) are unreachable on the paths below because the endpoint
checks them first. -/

namespace Reranker

structure Document where
  content : String
  metadata : List (String × String)
  score : Option ℚ
deriving DecidableEq

structure RerankRequest where
  query : String
  documents : List Document
  top_k : Int
  return_scores : Bool
deriving DecidableEq

structure RerankResponse where
  reranked_documents : List Document
  model : String
  original_count : Nat
  returned_count : Nat
deriving DecidableEq

/-- The three `HTTPException`s the endpoints raise before or instead of a
successful response: 503 "Model not loaded", 400 "No documents provided" /
"No texts provided", 400 "Too many documents (max 100)". -/
inductive ServiceError where
  | modelNotLoaded
  | noDocuments
  | tooManyDocuments
deriving DecidableEq

def MODEL_NAME : String := "Qwen/Qwen3-VL-Embedding-8B"

/-- `app.py` lines 118-126: the text actually scored.  A non-empty content
longer than 2000 characters is truncated to its first 2000 characters on a
copy (`doc.content[:2000]`); empty content scores as `""`. -/
def prepareContent (c : String) : String :=
  if c ≠ "" then (if 2000 < c.length then c.take 2000 else c) else ""

/-- `app.py` lines 127-139: each request document paired with its relevance
score `doc_embeddings[i] @ query_vec`, the returned `Document` keeping the
original content and metadata and carrying the score iff `return_scores`. -/
def scoredDocs (embed : String → List ℚ) (req : RerankRequest) :
    List (Document × ℚ) :=
  let queryVec := embed req.query
  req.documents.map (fun d =>
    let s := dot (embed (prepareContent d.content)) queryVec
    (⟨d.content, d.metadata, if req.return_scores then some s else none⟩, s))

/-- `POST /rerank` (`app.py` lines 106-154): validation, scoring, stable
descending sort on the score component, and `top_k = min(request.top_k,
len(scored_docs))` before slicing. -/
def rerank_documents (embed : String → List ℚ) (modelLoaded : Bool)
    (req : RerankRequest) : Except ServiceError RerankResponse :=
  if ¬ modelLoaded then .error .modelNotLoaded
  else if req.documents.isEmpty then .error .noDocuments
  else if 100 < req.documents.length then .error .tooManyDocuments
  else
    let sorted := pySortDesc (fun p => p.2) (scoredDocs embed req)
    let topk : Int := min req.top_k (sorted.length : Int)
    let reranked := (pyTake topk sorted).map (fun p => p.1)
    .ok ⟨reranked, MODEL_NAME, req.documents.length, reranked.length⟩

inductive ScoreOutput where
  | scores (values : List ℚ)
  | probabilities (values : List ℚ)
deriving DecidableEq

/-- `1 / (1 + np.exp(-s))`; the transcendental `np.exp` is embedded as the
parameter `exp`, about which only positivity is ever assumed. -/
def sigmoid (exp : ℚ → ℚ) (s : ℚ) : ℚ := 1 / (1 + exp (-s))

/-- `POST /score` (`app.py` lines 157-179): raw cosine scores, or their
sigmoid-mapped pseudo-probabilities, one per input text in input order. -/
def score_pairs (embed : String → List ℚ) (exp : ℚ → ℚ) (modelLoaded : Bool)
    (query : String) (texts : List String) (return_raw_scores : Bool) :
    Except ServiceError ScoreOutput :=
  if ¬ modelLoaded then .error .modelNotLoaded
  else if texts.isEmpty then .error .noDocuments
  else
    let queryVec := embed query
    let scores := texts.map (fun t => dot (embed t) queryVec)
    if return_raw_scores then .ok (.scores scores)
    else .ok (.probabilities (scores.map (sigmoid exp)))

end Reranker

/-! ### In-process ML services (`src/backend/app/services/ml_models.py`)

The `CrossEncoder.predict` and `SentenceTransformer.encode` inference calls
are embedded as fallible parameters (`Except String ·`); the `try/except`
blocks in the source catch any such failure and return `[]`. -/

namespace MLServices

structure RankedDoc where
  text : String
  score : ℚ
  index : Nat
deriving DecidableEq

/-- The `results` list built in the `for i, score in enumerate(scores)` loop:
each document paired with its score and original index (`documents[i]`
raises `IndexError` when `i` is out of range, which the caller catches;
the guard in `rerank` makes the lookup total here). -/
def scoredResults (documents : List String) (scores : List ℚ) :
    List RankedDoc :=
  scores.enum.map (fun p => RankedDoc.mk (documents.getD p.1 "") p.2 p.1)

/-- `MLServices.rerank` (`ml_models.py` lines 63-88).  Never raises: if the
reranker model is not loaded it returns `[]`; any exception inside the `try`
block (a failing `predict`, or the `IndexError` from `documents[i]` when
`predict` yields more scores than documents) is caught and `[]` returned.
Otherwise each document is paired with its score and original index, the list
is stably sorted by score descending, and `results[:top_k]` is returned. -/
def rerank (predict : List (String × String) → Except String (List ℚ))
    (rerankerLoaded : Bool) (query : String) (documents : List String)
    (top_k : Int) : List RankedDoc :=
  if ¬ rerankerLoaded then []
  else
    match predict (documents.map (fun d => (query, d))) with
    | .error _ => []
    | .ok scores =>
      if scores.length ≤ documents.length then
        pyTake top_k (pySortDesc (fun d => d.score) (scoredResults documents scores))
      else []

/-- `MLServices.embed_documents` (`ml_models.py` lines 90-101).  Never raises:
returns `[]` when the embedding model is not loaded, and `[]` when the
underlying `encode` call fails; no error of any kind is signaled. -/
def embed_documents (encode : List String → Except String (List (List ℚ)))
    (embeddingLoaded : Bool) (texts : List String) : List (List ℚ) :=
  if ¬ embeddingLoaded then []
  else
    match encode texts with
    | .ok es => es
    | .error _ => []

end MLServices

/-! ### Agent service (`src/backend/app/services/agent.py`)

`AgentService.process_query` receives `max_iterations: int = 10` and invokes
the prebuilt react agent on `{"messages": [HumanMessage(content=query)]}`.
The agent invocation itself is library code (`langgraph`), embedded as the
opaque parameter `ainvoke`. -/

namespace Agent

inductive Message where
  | human (content : String)
  | ai (content : String)
deriving DecidableEq

structure AgentState where
  messages : List Message
deriving DecidableEq

/-- `AgentService.process_query` (`agent.py` lines 44-47): builds the input
message list from the query and calls `self.agent.ainvoke(inputs)`. -/
def process_query (ainvoke : AgentState → AgentState) (query : String)
    (max_iterations : Nat) : AgentState :=
  ainvoke ⟨[Message.human query]⟩

end Agent

/-! ### Retrieval pipeline (`src/backend/app/services/rag.py`)

`RAGService` wires langchain components around the Chroma vector index:
`PyPDFLoader` (embedded as the page list parameter), `TokenTextSplitter`
(chunk_size = `settings.RAG_MAX_CHUNK_SIZE` = 1000, chunk_overlap = 150,
tokenizer embedded as `tok`/`detok`), `BGEM3Embeddings`
(= `MLServices.embed_documents`, see `llm_utils.py`), and
`Chroma.add_documents`.  The langchain/chromadb calls that `ingest_pdf`
makes are modeled from their library semantics: `add_documents` without
explicit ids generates a fresh `uuid4` per chunk (modeled by the
`nextUuid` counter), and the chromadb `upsert` overwrites records sharing
an id and rejects batches whose `ids`/`embeddings`/`documents` lists have
unequal lengths (a `ValueError` raised before anything is written). -/

namespace RAG

structure PageDoc where
  page_content : String
  metadata : List (String × String)
deriving DecidableEq

structure Chunk where
  text : String
  metadata : List (String × String)
deriving DecidableEq

structure IndexedRecord where
  embedding : List ℚ
  document : String
  metadata : List (String × String)
deriving DecidableEq

/-- The Chroma collection: records keyed by id (ids are modeled as `Nat`,
standing for the uuid strings langchain generates), plus the fresh-id
counter modeling the uuid4 supply. -/
structure VectorStore where
  records : List (Nat × IndexedRecord)
  nextUuid : Nat
deriving DecidableEq

inductive IngestError where
  | modelUnavailable
  | upsertLengthMismatch
deriving DecidableEq

/-- `settings.RAG_MAX_CHUNK_SIZE` default (`config.py` line 22). -/
def RAG_MAX_CHUNK_SIZE : Nat := 1000

/-- `chunk_overlap=150` (`rag.py` line 33). -/
def CHUNK_OVERLAP : Nat := 150

/-- langchain `split_text_on_tokens` specialized to the splitter configured
in `rag.py`.  The source loop appends `ids[start : start+1000]`, stops when
the slice reaches the end, and otherwise advances `start` by
`1000 - 150 = 850`; since every recursive step re-slices relative to the
advanced start, this equals taking the head slice and recursing on
`ids.drop 850`. -/
def splitTokens (ids : List Nat) : List (List Nat) :=
  if h1 : ids = [] then []
  else
    ids.take RAG_MAX_CHUNK_SIZE ::
      (if h2 : ids.length ≤ RAG_MAX_CHUNK_SIZE then []
       else splitTokens (ids.drop (RAG_MAX_CHUNK_SIZE - CHUNK_OVERLAP)))
termination_by ids.length
decreasing_by
  simp only [List.length_drop, RAG_MAX_CHUNK_SIZE, CHUNK_OVERLAP]
  have : ids.length ≠ 0 := fun h => h1 (List.length_eq_zero.mp h)
  omega

/-- `TokenTextSplitter.split_text`. -/
def splitText (tok : String → List Nat) (detok : List Nat → String)
    (text : String) : List String :=
  (splitTokens (tok text)).map detok

/-- `TokenTextSplitter.split_documents`: every chunk of a page document
inherits (a copy of) that page's metadata. -/
def splitDocuments (tok : String → List Nat) (detok : List Nat → String)
    (docs : List PageDoc) : List Chunk :=
  (docs.map (fun d =>
    (splitText tok detok d.page_content).map (fun t => Chunk.mk t d.metadata))).flatten

/-- Python dict assignment `m[k] = v` on a metadata map. -/
def assocSet (m : List (String × String)) (k v : String) :
    List (String × String) :=
  m.filter (fun kv => kv.1 != k) ++ [(k, v)]

/-- chromadb `collection.upsert`: records sharing an incoming id are
overwritten, everything else is kept, new records appended. -/
def upsert (rs new : List (Nat × IndexedRecord)) : List (Nat × IndexedRecord) :=
  rs.filter (fun r => !(new.any (fun n => n.1 == r.1))) ++ new

/-- langchain `Chroma.add_documents` as called from `ingest_pdf` (no ids
supplied): embed the chunk texts, generate a fresh uuid per chunk, and
upsert — chromadb first validates that the `ids`, `embeddings` and
`documents` batches have equal lengths, raising before anything is
written when they do not. -/
def add_documents (embedDocs : List String → List (List ℚ))
    (store : VectorStore) (chunks : List Chunk) :
    Except IngestError VectorStore :=
  let texts := chunks.map (fun c => c.text)
  let embeddings := embedDocs texts
  if embeddings.length = texts.length then
    let fresh := (List.zip chunks embeddings).enum.map
      (fun p => (store.nextUuid + p.1,
        IndexedRecord.mk p.2.2 p.2.1.text p.2.1.metadata))
    .ok ⟨upsert store.records fresh, store.nextUuid + chunks.length⟩
  else .error .upsertLengthMismatch

/-- `RAGService.ingest_pdf` (`rag.py` lines 36-50): load pages, stamp
`source`/`filename` metadata, split into chunks, write them to the vector
store iff there are any (`if chunks:`), and return the chunk count. -/
def stampedPages (pages : List PageDoc) (filename : String) : List PageDoc :=
  pages.map (fun p =>
    PageDoc.mk p.page_content
      (assocSet (assocSet p.metadata "source" filename) "filename" filename))

def ingest_pdf (encode : List String → Except String (List (List ℚ)))
    (embeddingLoaded : Bool) (tok : String → List Nat)
    (detok : List Nat → String) (store : VectorStore)
    (pages : List PageDoc) (filename : String) :
    Except IngestError (VectorStore × Nat) :=
  let chunks := splitDocuments tok detok (stampedPages pages filename)
  if chunks.isEmpty then .ok (store, 0)
  else
    match add_documents (MLServices.embed_documents encode embeddingLoaded)
        store chunks with
    | .ok store2 => .ok (store2, chunks.length)
    | .error e => .error e

/-- All record ids in the store were drawn from the uuid supply. -/
def VectorStore.WF (s : VectorStore) : Prop :=
  ∀ r ∈ s.records, r.1 < s.nextUuid

end RAG

/-! ## Claim theorems -/

/-- C1: the spec claims the agent loop reaches `Finalize` within
`max_iterations` turns or stops after exactly `max_iterations` turns with an
`IterationBudgetExceeded` flag.  In the code, `process_query` never uses its
`max_iterations` argument: the result is identical for every budget, so no
behavior — termination point, flag, or otherwise — can depend on it, and no
iteration-budget flag exists anywhere in the source. -/
theorem c1_process_query_ignores_max_iterations
    (ainvoke : Agent.AgentState → Agent.AgentState) (query : String)
    (m₁ m₂ : Nat) :
    Agent.process_query ainvoke query m₁ = Agent.process_query ainvoke query m₂ :=
  rfl

/-- C1, evaluated at a concrete failing input: with a stub agent that always
appends one model turn and never finalizes, a budget of 1 and a budget of
1000 yield the very same result — budget exhaustion is not represented. -/
theorem c1_concrete_budget_indistinguishable :
    Agent.process_query
      (fun st => Agent.AgentState.mk (st.messages ++ [Agent.Message.ai "step"]))
      "hi" 1 =
    Agent.process_query
      (fun st => Agent.AgentState.mk (st.messages ++ [Agent.Message.ai "step"]))
      "hi" 1000 :=
  rfl

/-- C10: `MLServices.rerank` never raises — when the reranker model is not
loaded, or when the scoring call fails with any internal error, it returns
`[]`, so a model failure is indistinguishable from an empty result at this
interface. -/
theorem c10_mlservices_rerank_silent_failure
    (predict : List (String × String) → Except String (List ℚ))
    (query : String) (documents : List String) (top_k : Int) :
    MLServices.rerank predict false query documents top_k = [] ∧
    (∀ e, predict (documents.map (fun d => (query, d))) = .error e →
      MLServices.rerank predict true query documents top_k = []) := by
  constructor
  · simp [MLServices.rerank]
  · intro e he
    simp [MLServices.rerank, he]

def predictFail : List (String × String) → Except String (List ℚ) :=
  fun _ => .error "CUDA out of memory"

/-- Witness for C10 at a concrete input. -/
theorem c10_witness :
    MLServices.rerank predictFail false "q" ["doc"] 5 = [] ∧
    MLServices.rerank predictFail true "q" ["doc"] 5 = [] :=
  ⟨(c10_mlservices_rerank_silent_failure predictFail "q" ["doc"] 5).1,
   (c10_mlservices_rerank_silent_failure predictFail "q" ["doc"] 5).2
     "CUDA out of memory" rfl⟩

/-- C4: `/rerank` rejects an empty candidate list with the no-documents
error and any list of more than 100 candidates with the too-many-documents
error; for 1 to 100 candidates neither validation error is ever produced
(whatever the model-load state). -/
theorem c4_rerank_batch_validation (embed : String → List ℚ)
    (req : Reranker.RerankRequest) :
    (req.documents = [] →
      Reranker.rerank_documents embed true req = .error .noDocuments) ∧
    (100 < req.documents.length →
      Reranker.rerank_documents embed true req = .error .tooManyDocuments) ∧
    (1 ≤ req.documents.length → req.documents.length ≤ 100 →
      ∀ modelLoaded : Bool,
        Reranker.rerank_documents embed modelLoaded req ≠ .error .noDocuments ∧
        Reranker.rerank_documents embed modelLoaded req ≠
          .error .tooManyDocuments) := by
  refine ⟨?_, ?_, ?_⟩
  · intro h
    simp [Reranker.rerank_documents, h]
  · intro h
    have hne : ¬ req.documents.isEmpty := by
      cases hd : req.documents with
      | nil => rw [hd] at h; simp at h
      | cons a t => simp [hd]
    simp [Reranker.rerank_documents, hne, h]
  · intro h1 h100 modelLoaded
    have hne : ¬ req.documents.isEmpty := by
      cases hd : req.documents with
      | nil => rw [hd] at h1; simp at h1
      | cons a t => simp [hd]
    cases modelLoaded with
    | false => simp [Reranker.rerank_documents]
    | true =>
      have hle : ¬ 100 < req.documents.length := by omega
      simp [Reranker.rerank_documents, hne, hle]

def embedOne : String → List ℚ := fun _ => [1]

def docOf (c : String) : Reranker.Document := Reranker.Document.mk c [] none

def reqEmpty : Reranker.RerankRequest := Reranker.RerankRequest.mk "q" [] 8 true

def req101 : Reranker.RerankRequest :=
  Reranker.RerankRequest.mk "q" (List.replicate 101 (docOf "d")) 8 true

def reqSingle : Reranker.RerankRequest :=
  Reranker.RerankRequest.mk "q" [docOf "d"] 8 true

/-- Witness for C4 at concrete inputs: 0, 101 and 1 candidates. -/
theorem c4_witness :
    Reranker.rerank_documents embedOne true reqEmpty = .error .noDocuments ∧
    Reranker.rerank_documents embedOne true req101 = .error .tooManyDocuments ∧
    Reranker.rerank_documents embedOne true reqSingle ≠ .error .noDocuments ∧
    Reranker.rerank_documents embedOne true reqSingle ≠
      .error .tooManyDocuments := by
  refine ⟨(c4_rerank_batch_validation embedOne reqEmpty).1 rfl,
    (c4_rerank_batch_validation embedOne req101).2.1 (by simp [req101]),
    ((c4_rerank_batch_validation embedOne reqSingle).2.2 (by simp [reqSingle])
      (by simp [reqSingle]) true).1,
    ((c4_rerank_batch_validation embedOne reqSingle).2.2 (by simp [reqSingle])
      (by simp [reqSingle]) true).2⟩

/-- The document list returned on the success path of `/rerank`. -/
def Reranker.okDocs (embed : String → List ℚ) (req : Reranker.RerankRequest) :
    List Reranker.Document :=
  (pyTake
      (min req.top_k
        ((pySortDesc (fun p => p.2) (Reranker.scoredDocs embed req)).length : Int))
      (pySortDesc (fun p => p.2) (Reranker.scoredDocs embed req))).map
    (fun p => p.1)

theorem Reranker.rerank_documents_ok (embed : String → List ℚ)
    (req : Reranker.RerankRequest) (hne : req.documents ≠ [])
    (hcap : req.documents.length ≤ 100) :
    Reranker.rerank_documents embed true req =
      .ok ⟨Reranker.okDocs embed req, Reranker.MODEL_NAME,
        req.documents.length, (Reranker.okDocs embed req).length⟩ := by
  have hne' : ¬ req.documents.isEmpty := by
    cases hd : req.documents with
    | nil => exact absurd hd hne
    | cons a t => simp [hd]
  have hcap' : ¬ 100 < req.documents.length := by omega
  simp [Reranker.rerank_documents, Reranker.okDocs, hne', hcap']

theorem pyTake_sublist (k : Int) (l : List α) : (pyTake k l).Sublist l := by
  unfold pyTake
  split
  · exact List.take_sublist _ _
  · exact List.take_sublist _ _

theorem pyTake_length_of_nonneg (k : Int) (l : List α) (hk : 0 ≤ k) :
    (pyTake k l).length = min k.toNat l.length := by
  simp [pyTake, hk, List.length_take]

theorem scoredDocs_length (embed : String → List ℚ)
    (req : Reranker.RerankRequest) :
    (Reranker.scoredDocs embed req).length = req.documents.length := by
  simp [Reranker.scoredDocs]

def reqNeg : Reranker.RerankRequest :=
  Reranker.RerankRequest.mk "q" [docOf "a", docOf "b"] (-1) true

/-- C5 counterexample: the claim quantifies over *every* `top_k`, but for the
negative `top_k = -1` on two candidates the endpoint follows Python slice
semantics and returns 1 document, while `min(top_k, 2) = -1`, so it does not
return "exactly `min(top_k, number of candidates)` results". -/
theorem c5_counterexample :
    Except.map (fun r => (r.returned_count : Int))
        (Reranker.rerank_documents embedOne true reqNeg) = .ok 1 ∧
    min (-1 : Int) ((reqNeg.documents.length : Int)) ≠ 1 := by
  constructor
  · norm_num [Reranker.rerank_documents, Reranker.scoredDocs,
      Reranker.prepareContent, reqNeg, docOf, embedOne, dot, pySortDesc,
      pyTake, List.insertionSort, List.orderedInsert]
    rfl
  · decide

/-- C5 (amended to non-negative `top_k`): for every non-empty candidate list
of at most 100 documents and every `top_k ≥ 0`, `/rerank` returns exactly
`min(top_k, number of candidates)` results, and when `top_k` is at least the
candidate count it returns (a reordering of) all the scored candidates. -/
theorem c5_topk_clamp (embed : String → List ℚ) (req : Reranker.RerankRequest)
    (hne : req.documents ≠ []) (hcap : req.documents.length ≤ 100)
    (hk : 0 ≤ req.top_k) :
    ∃ resp, Reranker.rerank_documents embed true req = .ok resp ∧
      ((resp.reranked_documents.length : Int) =
        min req.top_k (req.documents.length : Int)) ∧
      ((req.documents.length : Int) ≤ req.top_k →
        resp.reranked_documents.Perm
          ((Reranker.scoredDocs embed req).map (fun p => p.1))) := by
  refine ⟨_, Reranker.rerank_documents_ok embed req hne hcap, ?_, ?_⟩
  · have hslen : (pySortDesc (fun p => p.2) (Reranker.scoredDocs embed req)).length
        = req.documents.length := by
      rw [pySortDesc_length, scoredDocs_length]
    have hmin : (0 : Int) ≤ min req.top_k
        ((pySortDesc (fun p => p.2) (Reranker.scoredDocs embed req)).length : Int) :=
      le_min hk (Int.natCast_nonneg _)
    simp only [Reranker.okDocs, List.length_map]
    rw [pyTake_length_of_nonneg _ _ hmin, hslen]
    omega
  · intro hge
    have hslen : (pySortDesc (fun p => p.2) (Reranker.scoredDocs embed req)).length
        = req.documents.length := by
      rw [pySortDesc_length, scoredDocs_length]
    have hkeq : min req.top_k
        ((pySortDesc (fun p => p.2) (Reranker.scoredDocs embed req)).length : Int)
        = ((pySortDesc (fun p => p.2) (Reranker.scoredDocs embed req)).length : Int) := by
      rw [hslen]
      omega
    have htake : pyTake
        (min req.top_k
          ((pySortDesc (fun p => p.2) (Reranker.scoredDocs embed req)).length : Int))
        (pySortDesc (fun p => p.2) (Reranker.scoredDocs embed req))
        = pySortDesc (fun p => p.2) (Reranker.scoredDocs embed req) := by
      rw [hkeq]
      simp [pyTake]
    simp only [Reranker.okDocs, htake]
    exact (pySortDesc_perm _ _).map _

def reqTie : Reranker.RerankRequest :=
  Reranker.RerankRequest.mk "q" [docOf "a", docOf "b"] 8 true

/-- Witness for C5 at a concrete input (2 candidates, `top_k = 8`). -/
theorem c5_witness :
    ∃ resp, Reranker.rerank_documents embedOne true reqTie = .ok resp ∧
      ((resp.reranked_documents.length : Int) =
        min reqTie.top_k (reqTie.documents.length : Int)) ∧
      ((reqTie.documents.length : Int) ≤ reqTie.top_k →
        resp.reranked_documents.Perm
          ((Reranker.scoredDocs embedOne reqTie).map (fun p => p.1))) :=
  c5_topk_clamp embedOne reqTie (by decide) (by decide) (by decide)

/-- C6: every rerank call returns documents ordered by relevance score
descending with ties in input order.  For the service endpoint: the result
is the score-descending stable sort of the scored candidates cut to
`top_k` — the sorted list and the returned prefix are ordered by score
descending, and restricting the sorted list to any fixed score value gives
those candidates in their input order.  For the in-process
`MLServices.rerank`: whenever scoring succeeds, the output is the stable
descending sort of the indexed results cut to `top_k`, sorted descending,
with the same tie-stability property.  Both are pure functions of their
input, so identical input gives identical output order. -/
theorem c6_rerank_sorted_stable (embed : String → List ℚ)
    (req : Reranker.RerankRequest) (hne : req.documents ≠ [])
    (hcap : req.documents.length ≤ 100) :
    (∃ resp, Reranker.rerank_documents embed true req = .ok resp ∧
      resp.reranked_documents =
        (pyTake
            (min req.top_k
              ((pySortDesc (fun p => p.2) (Reranker.scoredDocs embed req)).length : Int))
            (pySortDesc (fun p => p.2) (Reranker.scoredDocs embed req))).map
          (fun p => p.1) ∧
      (pySortDesc (fun p => p.2) (Reranker.scoredDocs embed req)).Sorted
        (fun a b => b.2 ≤ a.2) ∧
      (pyTake
          (min req.top_k
            ((pySortDesc (fun p => p.2) (Reranker.scoredDocs embed req)).length : Int))
          (pySortDesc (fun p => p.2) (Reranker.scoredDocs embed req))).Sorted
        (fun a b => b.2 ≤ a.2) ∧
      (∀ c : ℚ,
        (pySortDesc (fun p => p.2) (Reranker.scoredDocs embed req)).filter
            (fun p => decide (p.2 = c)) =
          (Reranker.scoredDocs embed req).filter (fun p => decide (p.2 = c)))) ∧
    (∀ (predict : List (String × String) → Except String (List ℚ))
      (q : String) (docs : List String) (k : Int) (scores : List ℚ),
      predict (docs.map (fun d => (q, d))) = .ok scores →
      scores.length ≤ docs.length →
      MLServices.rerank predict true q docs k =
        pyTake k (pySortDesc (fun d => d.score)
          (MLServices.scoredResults docs scores)) ∧
      (MLServices.rerank predict true q docs k).Sorted
        (fun a b => b.score ≤ a.score) ∧
      (∀ c : ℚ,
        (pySortDesc (fun d => d.score)
            (MLServices.scoredResults docs scores)).filter
          (fun d => decide (d.score = c)) =
        (MLServices.scoredResults docs scores).filter
          (fun d => decide (d.score = c)))) := by
  constructor
  · have hsorted := pySortDesc_sorted
      (fun p : Reranker.Document × ℚ => p.2) (Reranker.scoredDocs embed req)
    refine ⟨_, Reranker.rerank_documents_ok embed req hne hcap, rfl, hsorted,
      List.Pairwise.sublist (pyTake_sublist _ _) hsorted, ?_⟩
    intro c
    exact pySortDesc_filter_key _ _ c
  · intro predict q docs k scores hok hlen
    have heq : MLServices.rerank predict true q docs k =
        pyTake k (pySortDesc (fun d => d.score)
          (MLServices.scoredResults docs scores)) := by
      simp [MLServices.rerank, hok, hlen]
    have hsorted := pySortDesc_sorted
      (fun d : MLServices.RankedDoc => d.score) (MLServices.scoredResults docs scores)
    refine ⟨heq, ?_, ?_⟩
    · rw [heq]
      exact List.Pairwise.sublist (pyTake_sublist _ _) hsorted
    · intro c
      exact pySortDesc_filter_key _ _ c

def predictOne : List (String × String) → Except String (List ℚ) :=
  fun ps => .ok (ps.map (fun _ => 1))

/-- Witness for C6 at concrete inputs (two tied candidates on each side). -/
theorem c6_witness :
    (∃ resp, Reranker.rerank_documents embedOne true reqTie = .ok resp ∧
      resp.reranked_documents =
        (pyTake
            (min reqTie.top_k
              ((pySortDesc (fun p => p.2) (Reranker.scoredDocs embedOne reqTie)).length : Int))
            (pySortDesc (fun p => p.2) (Reranker.scoredDocs embedOne reqTie))).map
          (fun p => p.1) ∧
      (pySortDesc (fun p => p.2) (Reranker.scoredDocs embedOne reqTie)).Sorted
        (fun a b => b.2 ≤ a.2) ∧
      (pyTake
          (min reqTie.top_k
            ((pySortDesc (fun p => p.2) (Reranker.scoredDocs embedOne reqTie)).length : Int))
          (pySortDesc (fun p => p.2) (Reranker.scoredDocs embedOne reqTie))).Sorted
        (fun a b => b.2 ≤ a.2) ∧
      (∀ c : ℚ,
        (pySortDesc (fun p => p.2) (Reranker.scoredDocs embedOne reqTie)).filter
            (fun p => decide (p.2 = c)) =
          (Reranker.scoredDocs embedOne reqTie).filter (fun p => decide (p.2 = c)))) ∧
    (MLServices.rerank predictOne true "q" ["d1", "d2"] 5 =
        pyTake 5 (pySortDesc (fun d => d.score)
          (MLServices.scoredResults ["d1", "d2"] [1, 1])) ∧
      (MLServices.rerank predictOne true "q" ["d1", "d2"] 5).Sorted
        (fun a b => b.score ≤ a.score) ∧
      (∀ c : ℚ,
        (pySortDesc (fun d => d.score)
            (MLServices.scoredResults ["d1", "d2"] [1, 1])).filter
          (fun d => decide (d.score = c)) =
        (MLServices.scoredResults ["d1", "d2"] [1, 1]).filter
          (fun d => decide (d.score = c)))) :=
  ⟨(c6_rerank_sorted_stable embedOne reqTie (by decide) (by decide)).1,
   (c6_rerank_sorted_stable embedOne reqTie (by decide) (by decide)).2
     predictOne "q" ["d1", "d2"] 5 [1, 1] rfl (by decide)⟩

/-- C7: truncation to 2000 characters happens only on the copy that is
scored — every document the endpoint returns carries the original
(untruncated) content and the original metadata of some request document,
and its recorded score is the one computed from the truncated copy. -/
theorem c7_rerank_returns_originals (embed : String → List ℚ)
    (req : Reranker.RerankRequest) (hne : req.documents ≠ [])
    (hcap : req.documents.length ≤ 100) :
    ∃ resp, Reranker.rerank_documents embed true req = .ok resp ∧
      ∀ d ∈ resp.reranked_documents, ∃ d0 ∈ req.documents,
        d.content = d0.content ∧ d.metadata = d0.metadata ∧
        d.score = (if req.return_scores then
          some (dot (embed (Reranker.prepareContent d0.content)) (embed req.query))
          else none) := by
  refine ⟨_, Reranker.rerank_documents_ok embed req hne hcap, ?_⟩
  intro d hd
  simp only [Reranker.okDocs, List.mem_map] at hd
  obtain ⟨p, hp, hpd⟩ := hd
  have hp2 : p ∈ pySortDesc (fun p => p.2) (Reranker.scoredDocs embed req) :=
    (pyTake_sublist _ _).mem hp
  have hp3 : p ∈ Reranker.scoredDocs embed req :=
    (pySortDesc_perm _ _).mem_iff.mp hp2
  simp only [Reranker.scoredDocs, List.mem_map] at hp3
  obtain ⟨d0, hd0, hpd0⟩ := hp3
  refine ⟨d0, hd0, ?_, ?_, ?_⟩ <;> rw [← hpd, ← hpd0]

def docLong : Reranker.Document :=
  Reranker.Document.mk (String.mk (List.replicate 2500 'a')) [("page", "1")] none

def reqLong : Reranker.RerankRequest :=
  Reranker.RerankRequest.mk "q" [docLong, docOf "b"] 8 true

/-- Witness for C7 at a concrete input including a 2500-character document. -/
theorem c7_witness :
    ∃ resp, Reranker.rerank_documents embedOne true reqLong = .ok resp ∧
      ∀ d ∈ resp.reranked_documents, ∃ d0 ∈ reqLong.documents,
        d.content = d0.content ∧ d.metadata = d0.metadata ∧
        d.score = (if reqLong.return_scores then
          some (dot (embedOne (Reranker.prepareContent d0.content))
            (embedOne reqLong.query))
          else none) :=
  c7_rerank_returns_originals embedOne reqLong (by simp [reqLong]) (by simp [reqLong])

/-- C9: for every non-empty text list, `/score` returns one value per input
text in input order — the unnormalized relevance scores when raw scores are
requested, and otherwise sigmoid-mapped pseudo-probabilities, each of which
lies in `[0, 1]` (given only that the exponential is positive). -/
theorem c9_score_modes (embed : String → List ℚ) (exp : ℚ → ℚ)
    (query : String) (texts : List String) (hne : texts ≠ [])
    (hexp : ∀ x, 0 < exp x) :
    Reranker.score_pairs embed exp true query texts true =
      .ok (.scores (texts.map (fun t => dot (embed t) (embed query)))) ∧
    (∃ ps, Reranker.score_pairs embed exp true query texts false =
        .ok (.probabilities ps) ∧
      ps = texts.map (fun t => Reranker.sigmoid exp (dot (embed t) (embed query))) ∧
      ∀ p ∈ ps, 0 ≤ p ∧ p ≤ 1) := by
  have hne' : ¬ texts.isEmpty := by
    cases ht : texts with
    | nil => exact absurd ht hne
    | cons a t => simp [ht]
  refine ⟨?_, ?_⟩
  · simp [Reranker.score_pairs, hne']
  · refine ⟨texts.map (fun t => Reranker.sigmoid exp (dot (embed t) (embed query))),
      ?_, rfl, ?_⟩
    · simp [Reranker.score_pairs, hne', List.map_map, Function.comp]
    intro p hp
    simp only [List.mem_map] at hp
    obtain ⟨t, -, hts⟩ := hp
    have he : 0 < exp (-(dot (embed t) (embed query))) := hexp _
    constructor
    · rw [← hts]
      unfold Reranker.sigmoid
      positivity
    · rw [← hts]
      unfold Reranker.sigmoid
      rw [div_le_one (by linarith)]
      linarith

def expOne : ℚ → ℚ := fun _ => 1

/-- Witness for C9 at a concrete input. -/
theorem c9_witness :
    Reranker.score_pairs embedOne expOne true "q" ["t"] true =
      .ok (.scores (["t"].map (fun t => dot (embedOne t) (embedOne "q")))) ∧
    (∃ ps, Reranker.score_pairs embedOne expOne true "q" ["t"] false =
        .ok (.probabilities ps) ∧
      ps = ["t"].map (fun t => Reranker.sigmoid expOne (dot (embedOne t) (embedOne "q"))) ∧
      ∀ p ∈ ps, 0 ≤ p ∧ p ≤ 1) :=
  c9_score_modes embedOne expOne "q" ["t"] (by simp)
    (fun x => by norm_num [expOne])

/-! ### Lemmas about the splitter and the vector store -/

theorem RAG.splitTokens_nil : RAG.splitTokens [] = [] := by
  unfold RAG.splitTokens
  simp

theorem RAG.splitTokens_eq_nil_iff (ids : List Nat) :
    RAG.splitTokens ids = [] ↔ ids = [] := by
  constructor
  · intro h
    by_contra hne
    rw [RAG.splitTokens] at h
    simp [hne] at h
  · intro h
    rw [h]
    exact RAG.splitTokens_nil

theorem RAG.splitTokens_short (ids : List Nat) (hne : ids ≠ [])
    (hlen : ids.length ≤ RAG.RAG_MAX_CHUNK_SIZE) :
    RAG.splitTokens ids = [ids] := by
  rw [RAG.splitTokens]
  simp [hne, hlen, List.take_of_length_le hlen]

theorem RAG.splitDocuments_ne_nil (tok : String → List Nat)
    (detok : List Nat → String) (docs : List RAG.PageDoc)
    (h : ∃ d ∈ docs, tok d.page_content ≠ []) :
    RAG.splitDocuments tok detok docs ≠ [] := by
  obtain ⟨d, hd, hne⟩ := h
  intro hcon
  unfold RAG.splitDocuments at hcon
  rw [List.flatten_eq_nil_iff] at hcon
  have hmem : (RAG.splitText tok detok d.page_content).map
      (fun t => RAG.Chunk.mk t d.metadata) ∈
      docs.map (fun d =>
        (RAG.splitText tok detok d.page_content).map
          (fun t => RAG.Chunk.mk t d.metadata)) :=
    List.mem_map_of_mem _ hd
  have := hcon _ hmem
  rw [List.map_eq_nil_iff, RAG.splitText, List.map_eq_nil_iff,
    RAG.splitTokens_eq_nil_iff] at this
  exact hne this

/-- When the embedder yields one embedding per text, `add_documents`
succeeds and appends exactly one record per chunk: the generated ids are
fresh (the uuid supply never repeats), so the upsert overwrites nothing. -/
theorem RAG.add_documents_fresh (embedDocs : List String → List (List ℚ))
    (store : RAG.VectorStore) (chunks : List RAG.Chunk)
    (hwf : store.WF)
    (hlen : (embedDocs (chunks.map (fun c => c.text))).length = chunks.length) :
    ∃ store2, RAG.add_documents embedDocs store chunks = .ok store2 ∧
      store2.WF ∧
      store2.records.length = store.records.length + chunks.length ∧
      store2.nextUuid = store.nextUuid + chunks.length := by
  have hlen' : (embedDocs (chunks.map (fun c => c.text))).length =
      (chunks.map (fun c => c.text)).length := by
    rw [hlen, List.length_map]
  have hziplen : (List.zip chunks (embedDocs (chunks.map (fun c => c.text)))).length
      = chunks.length := by
    rw [List.length_zip, hlen]
    omega
  have hfreshlen :
      ((List.zip chunks (embedDocs (chunks.map (fun c => c.text)))).enum.map
        (fun p => (store.nextUuid + p.1,
          RAG.IndexedRecord.mk p.2.2 p.2.1.text p.2.1.metadata))).length
      = chunks.length := by
    rw [List.length_map, List.enum_length, hziplen]
  have hfresh_ge : ∀ n ∈ (List.zip chunks (embedDocs (chunks.map (fun c => c.text)))).enum.map
      (fun p => (store.nextUuid + p.1,
        RAG.IndexedRecord.mk p.2.2 p.2.1.text p.2.1.metadata)),
      store.nextUuid ≤ n.1 ∧ n.1 < store.nextUuid + chunks.length := by
    intro n hn
    rw [List.mem_map] at hn
    obtain ⟨p, hp, hpn⟩ := hn
    have hp1 : p.1 < (List.zip chunks (embedDocs (chunks.map (fun c => c.text)))).length := by
      rw [List.enum_eq_zip_range] at hp
      have := (List.of_mem_zip hp).1
      rw [List.mem_range] at this
      exact this
    rw [hziplen] at hp1
    rw [← hpn]
    exact ⟨Nat.le_add_right _ _, by omega⟩
  have hkeep : store.records.filter
      (fun r => !(((List.zip chunks (embedDocs (chunks.map (fun c => c.text)))).enum.map
        (fun p => (store.nextUuid + p.1,
          RAG.IndexedRecord.mk p.2.2 p.2.1.text p.2.1.metadata))).any
          (fun n => n.1 == r.1))) = store.records := by
    rw [List.filter_eq_self]
    intro r hr
    rw [Bool.not_eq_true', List.any_eq_false]
    intro n hn
    have h1 := (hfresh_ge n hn).1
    have h2 := hwf r hr
    simp only [beq_iff_eq]
    omega
  have heq : RAG.add_documents embedDocs store chunks =
      .ok (RAG.VectorStore.mk
        (RAG.upsert store.records
          ((List.zip chunks (embedDocs (chunks.map (fun c => c.text)))).enum.map
            (fun p => (store.nextUuid + p.1,
              RAG.IndexedRecord.mk p.2.2 p.2.1.text p.2.1.metadata))))
        (store.nextUuid + chunks.length)) := by
    simp only [RAG.add_documents]
    rw [if_pos hlen']
  refine ⟨_, heq, ?_, ?_, ?_⟩
  · intro r hr
    simp only [RAG.upsert, hkeep, List.mem_append] at hr
    rcases hr with hr | hr
    · have := hwf r hr
      simp only
      omega
    · exact (hfresh_ge r hr).2
  · simp only [RAG.upsert, hkeep, List.length_append, hfreshlen]
  · rfl

/-- One ingestion with a working embedder adds exactly one record per chunk
(none are overwritten, since the generated ids are fresh). -/
theorem RAG.ingest_pdf_adds (encode : List String → Except String (List (List ℚ)))
    (tok : String → List Nat) (detok : List Nat → String)
    (store : RAG.VectorStore) (pages : List RAG.PageDoc) (filename : String)
    (hwf : store.WF)
    (hembedlen : ∀ ts, (MLServices.embed_documents encode true ts).length = ts.length) :
    ∃ store2,
      RAG.ingest_pdf encode true tok detok store pages filename =
        .ok (store2,
          (RAG.splitDocuments tok detok (RAG.stampedPages pages filename)).length) ∧
      store2.WF ∧
      store2.records.length = store.records.length +
        (RAG.splitDocuments tok detok (RAG.stampedPages pages filename)).length := by
  by_cases hch : (RAG.splitDocuments tok detok (RAG.stampedPages pages filename)).isEmpty
  · have hnil : RAG.splitDocuments tok detok (RAG.stampedPages pages filename) = [] :=
      List.isEmpty_iff.mp hch
    refine ⟨store, ?_, hwf, by rw [hnil]; simp⟩
    simp only [RAG.ingest_pdf]
    rw [hnil]
    simp
  · obtain ⟨store2, heq, hwf2, hcount, -⟩ :=
      RAG.add_documents_fresh (MLServices.embed_documents encode true) store
        (RAG.splitDocuments tok detok (RAG.stampedPages pages filename)) hwf
        (by rw [hembedlen, List.length_map])
    refine ⟨store2, ?_, hwf2, hcount⟩
    simp only [RAG.ingest_pdf]
    rw [if_neg hch, heq]

/-- C3 (amended): ingestion is *not* idempotent with respect to record
count.  `ingest_pdf` passes no ids to the index, so a fresh id is generated
per chunk and nothing is overwritten: every ingestion of a document that
splits into `n` chunks adds `n` new records, and ingesting the same document
twice leaves `n` more records than ingesting it once (the counts agree only
when the document yields zero chunks). -/
theorem c3_ingest_not_idempotent
    (encode : List String → Except String (List (List ℚ)))
    (tok : String → List Nat) (detok : List Nat → String)
    (store : RAG.VectorStore) (pages : List RAG.PageDoc) (filename : String)
    (hwf : store.WF)
    (hembed : ∀ ts : List String, ∃ es, encode ts = .ok es ∧ es.length = ts.length) :
    ∃ s1 s2,
      RAG.ingest_pdf encode true tok detok store pages filename =
        .ok (s1,
          (RAG.splitDocuments tok detok (RAG.stampedPages pages filename)).length) ∧
      RAG.ingest_pdf encode true tok detok s1 pages filename =
        .ok (s2,
          (RAG.splitDocuments tok detok (RAG.stampedPages pages filename)).length) ∧
      s1.records.length = store.records.length +
        (RAG.splitDocuments tok detok (RAG.stampedPages pages filename)).length ∧
      s2.records.length = s1.records.length +
        (RAG.splitDocuments tok detok (RAG.stampedPages pages filename)).length := by
  have hembedlen : ∀ ts, (MLServices.embed_documents encode true ts).length = ts.length := by
    intro ts
    obtain ⟨es, he, hl⟩ := hembed ts
    simp [MLServices.embed_documents, he, hl]
  obtain ⟨s1, h1, hwf1, hc1⟩ :=
    RAG.ingest_pdf_adds encode tok detok store pages filename hwf hembedlen
  obtain ⟨s2, h2, hwf2, hc2⟩ :=
    RAG.ingest_pdf_adds encode tok detok s1 pages filename hwf1 hembedlen
  exact ⟨s1, s2, h1, h2, hc1, hc2⟩

/-! Concrete fixtures for the ingestion claims. -/

def encodeW : List String → Except String (List (List ℚ)) :=
  fun ts => .ok (ts.map (fun _ => [1]))

def tokOne : String → List Nat := fun _ => [0]

def tokNil : String → List Nat := fun _ => []

def detokT : List Nat → String := fun _ => "t"

def storeEmpty : RAG.VectorStore := RAG.VectorStore.mk [] 0

def pagesA : List RAG.PageDoc := [RAG.PageDoc.mk "a" []]

def pagesEmpty : List RAG.PageDoc := [RAG.PageDoc.mk "" []]

theorem storeEmpty_wf : storeEmpty.WF := by
  intro r hr
  simp [storeEmpty] at hr

theorem encodeW_lengths :
    ∀ ts : List String, ∃ es, encodeW ts = .ok es ∧ es.length = ts.length :=
  fun ts => ⟨ts.map (fun _ => [1]), rfl, by simp⟩

theorem chunksA_length :
    (RAG.splitDocuments tokOne detokT (RAG.stampedPages pagesA "a.pdf")).length = 1 := by
  have h1 : RAG.splitTokens [0] = [[0]] :=
    RAG.splitTokens_short [0] (by simp) (by simp [RAG.RAG_MAX_CHUNK_SIZE])
  simp [RAG.splitDocuments, RAG.splitText, RAG.stampedPages, pagesA, tokOne, h1]

/-- C3 counterexample: ingesting the one-chunk document `pagesA` into an
empty index once yields 1 record, ingesting it a second time yields 2 — not
the same count, because the record ids are freshly generated rather than
derived from document id + chunk index. -/
theorem c3_counterexample :
    ∃ s1 s2,
      RAG.ingest_pdf encodeW true tokOne detokT storeEmpty pagesA "a.pdf" =
        .ok (s1, 1) ∧
      RAG.ingest_pdf encodeW true tokOne detokT s1 pagesA "a.pdf" = .ok (s2, 1) ∧
      s1.records.length = 1 ∧ s2.records.length = 2 := by
  have hembedlen : ∀ ts, (MLServices.embed_documents encodeW true ts).length = ts.length := by
    intro ts
    simp [MLServices.embed_documents, encodeW]
  obtain ⟨s1, h1, hwf1, hc1⟩ :=
    RAG.ingest_pdf_adds encodeW tokOne detokT storeEmpty pagesA "a.pdf"
      storeEmpty_wf hembedlen
  obtain ⟨s2, h2, hwf2, hc2⟩ :=
    RAG.ingest_pdf_adds encodeW tokOne detokT s1 pagesA "a.pdf" hwf1 hembedlen
  rw [chunksA_length] at h1 h2 hc1 hc2
  refine ⟨s1, s2, h1, h2, ?_, ?_⟩
  · rw [hc1]
    simp [storeEmpty]
  · rw [hc2, hc1]
    simp [storeEmpty]

/-- Witness for C3 at a concrete input. -/
theorem c3_witness :
    ∃ s1 s2,
      RAG.ingest_pdf encodeW true tokOne detokT storeEmpty pagesA "a.pdf" =
        .ok (s1,
          (RAG.splitDocuments tokOne detokT (RAG.stampedPages pagesA "a.pdf")).length) ∧
      RAG.ingest_pdf encodeW true tokOne detokT s1 pagesA "a.pdf" =
        .ok (s2,
          (RAG.splitDocuments tokOne detokT (RAG.stampedPages pagesA "a.pdf")).length) ∧
      s1.records.length = storeEmpty.records.length +
        (RAG.splitDocuments tokOne detokT (RAG.stampedPages pagesA "a.pdf")).length ∧
      s2.records.length = s1.records.length +
        (RAG.splitDocuments tokOne detokT (RAG.stampedPages pagesA "a.pdf")).length :=
  c3_ingest_not_idempotent encodeW tokOne detokT storeEmpty pagesA "a.pdf"
    storeEmpty_wf encodeW_lengths

/-- C2 (amended): if the embedding model is unavailable during ingestion of
a document with non-empty token content, `MLServices.embed_documents`
returns the empty list *without signaling any error*; `ingest_pdf` performs
no zero-embedding check and still calls the vector store, whose batch-length
validation rejects the write before anything is stored.  Ingestion therefore
aborts with zero records written, but the failure surfaces as the index
client's length-mismatch error — a `ModelUnavailableError` is never
raised. -/
theorem c2_model_unavailable_aborts
    (encode : List String → Except String (List (List ℚ)))
    (tok : String → List Nat) (detok : List Nat → String)
    (store : RAG.VectorStore) (pages : List RAG.PageDoc) (filename : String)
    (hne : ∃ p ∈ pages, tok p.page_content ≠ []) :
    (∀ ts, MLServices.embed_documents encode false ts = []) ∧
    RAG.ingest_pdf encode false tok detok store pages filename =
      .error .upsertLengthMismatch := by
  have hemb : ∀ ts, MLServices.embed_documents encode false ts = [] := by
    intro ts
    simp [MLServices.embed_documents]
  refine ⟨hemb, ?_⟩
  have hch : RAG.splitDocuments tok detok (RAG.stampedPages pages filename) ≠ [] := by
    apply RAG.splitDocuments_ne_nil
    obtain ⟨p, hp, hpne⟩ := hne
    exact ⟨RAG.PageDoc.mk p.page_content
        (RAG.assocSet (RAG.assocSet p.metadata "source" filename) "filename" filename),
      List.mem_map_of_mem _ hp, hpne⟩
  have hch' : ¬ (RAG.splitDocuments tok detok (RAG.stampedPages pages filename)).isEmpty := by
    simpa [List.isEmpty_iff] using hch
  have hlen0 : ¬ (([] : List (List ℚ)).length =
      ((RAG.splitDocuments tok detok (RAG.stampedPages pages filename)).map
        (fun c => c.text)).length) := by
    simp only [List.length_nil, List.length_map]
    intro h0
    exact hch (List.length_eq_zero.mp h0.symm)
  have hadd : RAG.add_documents (MLServices.embed_documents encode false) store
      (RAG.splitDocuments tok detok (RAG.stampedPages pages filename)) =
      .error .upsertLengthMismatch := by
    simp only [RAG.add_documents, hemb]
    rw [if_neg hlen0]
  simp only [RAG.ingest_pdf]
  rw [if_neg hch', hadd]

/-- C2 counterexample: with the embedding model unavailable, ingesting the
non-empty document `pagesA` aborts with the index client's length-mismatch
error, not the `ModelUnavailableError` the claim names, and the embedder
returns `[]` for non-empty input without signaling anything. -/
theorem c2_counterexample :
    RAG.ingest_pdf encodeW false tokOne detokT storeEmpty pagesA "a.pdf" =
      .error .upsertLengthMismatch ∧
    RAG.ingest_pdf encodeW false tokOne detokT storeEmpty pagesA "a.pdf" ≠
      .error .modelUnavailable ∧
    MLServices.embed_documents encodeW false ["a"] = [] := by
  have h1 : RAG.splitTokens [0] = [[0]] :=
    RAG.splitTokens_short [0] (by simp) (by simp [RAG.RAG_MAX_CHUNK_SIZE])
  have hmain : RAG.ingest_pdf encodeW false tokOne detokT storeEmpty pagesA "a.pdf" =
      .error .upsertLengthMismatch := by
    simp [RAG.ingest_pdf, RAG.splitDocuments, RAG.splitText, RAG.stampedPages,
      RAG.assocSet, RAG.add_documents, MLServices.embed_documents, pagesA,
      tokOne, h1]
  refine ⟨hmain, ?_, by simp [MLServices.embed_documents]⟩
  rw [hmain]
  simp

/-- Witness for C2 at a concrete input. -/
theorem c2_witness :
    (∀ ts, MLServices.embed_documents encodeW false ts = []) ∧
    RAG.ingest_pdf encodeW false tokOne detokT storeEmpty pagesA "p.pdf" =
      .error .upsertLengthMismatch :=
  c2_model_unavailable_aborts encodeW tokOne detokT storeEmpty pagesA "p.pdf"
    ⟨RAG.PageDoc.mk "a" [], by simp [pagesA], by simp [tokOne]⟩

/-- C8: a document none of whose pages has any token content yields zero
chunks, and ingestion returns chunk count 0 as a valid non-error outcome
with the vector store untouched; a non-empty document of fewer than
`max_chunk_size` tokens yields exactly one chunk, carrying the whole token
content and the page metadata. -/
theorem c8_empty_and_short_documents
    (encode : List String → Except String (List (List ℚ)))
    (embeddingLoaded : Bool) (tok : String → List Nat)
    (detok : List Nat → String) (store : RAG.VectorStore)
    (pages : List RAG.PageDoc) (filename : String) :
    ((∀ p ∈ pages, tok p.page_content = []) →
      RAG.ingest_pdf encode embeddingLoaded tok detok store pages filename =
        .ok (store, 0)) ∧
    (∀ text meta, tok text ≠ [] → (tok text).length < RAG.RAG_MAX_CHUNK_SIZE →
      RAG.splitDocuments tok detok [RAG.PageDoc.mk text meta] =
        [RAG.Chunk.mk (detok (tok text)) meta]) := by
  constructor
  · intro hall
    have hnil : RAG.splitDocuments tok detok (RAG.stampedPages pages filename) = [] := by
      unfold RAG.splitDocuments
      rw [List.flatten_eq_nil_iff]
      intro l hl
      rw [List.mem_map] at hl
      obtain ⟨d, hd, hdl⟩ := hl
      rw [← hdl, List.map_eq_nil_iff]
      unfold RAG.splitText
      rw [List.map_eq_nil_iff, RAG.splitTokens_eq_nil_iff]
      unfold RAG.stampedPages at hd
      rw [List.mem_map] at hd
      obtain ⟨p, hp, hpd⟩ := hd
      rw [← hpd]
      exact hall p hp
    simp only [RAG.ingest_pdf]
    rw [hnil]
    simp
  · intro text meta hne hlen
    unfold RAG.splitDocuments RAG.splitText
    simp only [List.map_cons, List.map_nil, List.flatten_cons, List.flatten_nil,
      List.append_nil]
    rw [RAG.splitTokens_short _ hne (le_of_lt hlen)]
    simp

/-- Witness for C8 at concrete inputs: a page with empty extracted text
(tokenizing to nothing), and a one-token document. -/
theorem c8_witness :
    ((∀ p ∈ pagesEmpty, tokNil p.page_content = []) ∧
      RAG.ingest_pdf encodeW true tokNil detokT storeEmpty pagesEmpty "e.pdf" =
        .ok (storeEmpty, 0)) ∧
    (tokOne "hello" ≠ [] ∧ (tokOne "hello").length < RAG.RAG_MAX_CHUNK_SIZE ∧
      RAG.splitDocuments tokOne detokT [RAG.PageDoc.mk "hello" []] =
        [RAG.Chunk.mk (detokT (tokOne "hello")) []]) := by
  refine ⟨⟨by simp [tokNil], ?_⟩, by simp [tokOne], ?_, ?_⟩
  · exact (c8_empty_and_short_documents encodeW true tokNil detokT storeEmpty
      pagesEmpty "e.pdf").1 (by simp [tokNil])
  · simp [tokOne, RAG.RAG_MAX_CHUNK_SIZE]
  · exact (c8_empty_and_short_documents encodeW true tokOne detokT storeEmpty
      pagesEmpty "e.pdf").2 "hello" [] (by simp [tokOne])
      (by simp [tokOne, RAG.RAG_MAX_CHUNK_SIZE])

end TaskFlow
